import Mathlib

/-!
Shallow embedding of the passport-photo repository (standards registry,
crop geometry, crop/fit/validate pipeline, sheet layout).

Integers of the source (Python ints) are modelled as `Int`; the source's
float quantities (face padding, aspect value) are modelled exactly as `Rat`.
Python's `round` (round half to even) is modelled by `roundHE`; Python's
floor division `//` is modelled by `Int.fdiv`.
-/

set_option allowUnsafeReducibility true in
attribute [semireducible] Rat.add Rat.sub Rat.mul Rat.inv Rat.div

/-- Mirrors `PassportSheetConfig` from `standards.py`. -/
structure PassportSheetConfig where
  canvas_size : Int × Int
  margin_px : Int
  default_copies : Int
  label : String
deriving DecidableEq

/-- Mirrors `PassportStandard` from `standards.py`. -/
structure PassportStandard where
  code : String
  display_name : String
  width_px : Int
  height_px : Int
  dpi : Int
  description : String
  face_padding : Rat
  sheet : PassportSheetConfig
deriving DecidableEq

/-- `PassportStandard.size` property from `standards.py`. -/
def PassportStandard.size (s : PassportStandard) : Int × Int :=
  (s.width_px, s.height_px)

/-- `PassportStandard.aspect_ratio` property from `standards.py`
(`width_px / height_px`, true division). -/
def PassportStandard.aspect (s : PassportStandard) : Rat :=
  (s.width_px : Rat) / (s.height_px : Rat)

/-- The default sheet configuration (`PassportSheetConfig()` defaults). -/
def defaultSheetConfig : PassportSheetConfig :=
  { canvas_size := (1200, 1800), margin_px := 60, default_copies := 4,
    label := "4x6 in sheet" }

/-- The `"us"` entry of `STANDARDS`. -/
def usStandard : PassportStandard :=
  { code := "us", display_name := "United States (USCIS)", width_px := 600,
    height_px := 600, dpi := 300,
    description := "2x2 in photo for US passports and visas.",
    face_padding := mkRat 17 10, sheet := defaultSheetConfig }

/-- The `"india"` entry of `STANDARDS`. -/
def indiaStandard : PassportStandard :=
  { code := "india", display_name := "India", width_px := 600,
    height_px := 600, dpi := 300,
    description := "51x51 mm (2x2 in) photo widely accepted for Indian passport services.",
    face_padding := mkRat 17 10, sheet := defaultSheetConfig }

/-- The `"uk"` entry of `STANDARDS`. -/
def ukStandard : PassportStandard :=
  { code := "uk", display_name := "United Kingdom", width_px := 413,
    height_px := 531, dpi := 300,
    description := "35x45 mm photo used for UK passport applications.",
    face_padding := mkRat 19 10, sheet := defaultSheetConfig }

/-- The `STANDARDS` dict of `standards.py`, in insertion order. -/
def STANDARDS : List (String × PassportStandard) :=
  [("us", usStandard), ("india", indiaStandard), ("uk", ukStandard)]

/-- `DEFAULT_STANDARD` of `standards.py` (`STANDARDS["us"]`). -/
def DEFAULT_STANDARD : PassportStandard := usStandard

/-- Code-point lexicographic order on strings (Python string `<=`),
computed on the character lists so that it evaluates by kernel reduction. -/
def strLeB : List Char → List Char → Bool
  | [], _ => true
  | _ :: _, [] => false
  | a :: as, b :: bs =>
    if a.toNat < b.toNat then true
    else if b.toNat < a.toNat then false
    else strLeB as bs

/-- Insertion of a string into a sorted list (helper for Python `sorted`). -/
def insertSorted (s : String) : List String → List String
  | [] => [s]
  | t :: ts => if strLeB s.data t.data then s :: t :: ts else t :: insertSorted s ts

/-- Python `sorted` on a list of strings, via insertion sort. -/
def sortStrings (l : List String) : List String :=
  l.foldr insertSorted []

deriving instance DecidableEq for Except

/-- Python `str.lower` on ASCII text, modelled character by character. -/
def pyLower (s : String) : String :=
  ⟨s.data.map Char.toLower⟩

/-- Python truthiness of an `Optional[str]` (`not code` is true for `None`
and for the empty string). -/
def truthyStr : Option String → Bool
  | none => false
  | some s => s ≠ ""

/-- Mirrors `get_standard` from `standards.py`: empty/None code falls back to
the default; otherwise lowercase lookup; unknown code raises `KeyError` with
a message listing the sorted codes. -/
def get_standard (code : Option String) : Except String PassportStandard :=
  if truthyStr code = false then .ok DEFAULT_STANDARD
  else
    let c := code.getD ""
    let key := pyLower c
    match (STANDARDS.lookup key) with
    | some std => .ok std
    | none =>
        .error ("Unknown passport standard '" ++ c ++ "'. Available: "
          ++ String.intercalate ", " (sortStrings (STANDARDS.map Prod.fst)))

/-- Mirrors the `CropSuggestion` dataclass of `processing.py`. -/
structure CropSuggestion where
  left : Int
  top : Int
  right : Int
  bottom : Int
deriving DecidableEq

/-- Python's built-in `round` on an exact rational: round half to even. -/
def roundHE (q : Rat) : Int :=
  let n := ⌊q⌋
  if q - n < 1/2 then n
  else if q - n > 1/2 then n + 1
  else if n % 2 = 0 then n else n + 1

/-- The `target_height` local of `suggest_crop`:
`max(h * padding, (w * padding) / ratio)`. -/
def targetCropHeight (std : PassportStandard) (w h : Int) : Rat :=
  max ((h : Rat) * std.face_padding) (((w : Rat) * std.face_padding) / std.aspect)

/-- One axis of the boundary clamp of `suggest_crop`. The source performs the
three steps for the x axis and the y axis interleaved, but the steps only ever
read and write one axis, so the per-axis helper is the same computation:
if the low edge is negative, translate the box to start at 0; if the high edge
exceeds the bound, translate the box down by the overflow; finally floor the
low edge at 0. -/
def clampAxis (lo hi bound : Int) : Int × Int :=
  let s1 := if lo < 0 then ((0 : Int), hi - lo) else (lo, hi)
  let s2 := if s1.2 > bound then (s1.1 - (s1.2 - bound), bound) else s1
  (max s2.1 0, s2.2)

/-- The geometry of `suggest_crop` from `processing.py`, applied to the face
box `(x, y, w, h)` selected from the detector output: center on the face,
build a box of the padded target size rounded to integers, then clamp each
axis into the image. -/
def suggestCropGeom (std : PassportStandard) (x y w h imgW imgH : Int) :
    CropSuggestion :=
  let center_x := x + w.fdiv 2
  let center_y := y + h.fdiv 2
  let target_height := targetCropHeight std w h
  let target_width := target_height * std.aspect
  let half_width := target_width / 2
  let half_height := target_height / 2
  let l0 := roundHE ((center_x : Rat) - half_width)
  let t0 := roundHE ((center_y : Rat) - half_height)
  let r0 := roundHE ((center_x : Rat) + half_width)
  let b0 := roundHE ((center_y : Rat) + half_height)
  let lr := clampAxis l0 r0 imgW
  let tb := clampAxis t0 b0 imgH
  ⟨lr.1, tb.1, lr.2, tb.2⟩

/-- Python `max(faces, key=lambda rect: rect[2] * rect[3])`: the first face of
largest area (Python `max` keeps the earliest maximal element). -/
def selectLargestFace : List (Int × Int × Int × Int) →
    Option (Int × Int × Int × Int)
  | [] => none
  | f :: fs =>
      some (fs.foldl
        (fun best g =>
          if g.2.2.1 * g.2.2.2 > best.2.2.1 * best.2.2.2 then g else best) f)

/-- Mirrors `suggest_crop` from `processing.py`. The Haar-cascade face
detector is an external collaborator; its output (the list of face boxes in
pixel coordinates) is passed in. An empty detection returns `none`. -/
def suggest_crop (faces : List (Int × Int × Int × Int)) (imgW imgH : Int)
    (std : PassportStandard) : Option CropSuggestion :=
  match selectLargestFace faces with
  | none => none
  | some (x, y, w, h) => some (suggestCropGeom std x y w h imgW imgH)

/-- The `ValueError`s raised by the processing helpers. -/
inductive PhotoError where
  | inputTooSmall
  | cropTooSmall
deriving DecidableEq

/-- Mirrors `validate_image_size` from `processing.py`. -/
def validate_image_size (imgW imgH : Int) (std : PassportStandard) :
    Except PhotoError Unit :=
  if imgW < std.width_px ∨ imgH < std.height_px then .error .inputTooSmall
  else .ok ()

/-- An in-memory RGB image: a size and a pixel map. -/
structure Img where
  width : Int
  height : Int
  pix : Int → Int → Int × Int × Int

/-- Two images agree as pictures: same size and same pixels at every
in-bounds coordinate. -/
def Img.pixEq (a b : Img) : Prop :=
  a.width = b.width ∧ a.height = b.height ∧
  ∀ i j : Int, 0 ≤ i → i < a.width → 0 ≤ j → j < a.height →
    a.pix i j = b.pix i j

/-- Model of `PIL.Image.crop((l, t, r, b))`: the result has size
`(r - l, b - t)`; pixels are taken from the source where the translated
coordinate is in bounds, and are padding (black) elsewhere. -/
def pilCrop (img : Img) (box : Int × Int × Int × Int) : Img :=
  { width := box.2.2.1 - box.1, height := box.2.2.2 - box.2.1,
    pix := fun i j =>
      if 0 ≤ box.1 + i ∧ box.1 + i < img.width ∧
          0 ≤ box.2.1 + j ∧ box.2.1 + j < img.height
      then img.pix (box.1 + i) (box.2.1 + j) else (0, 0, 0) }

/-- Model of `PIL.ImageOps.fit(image, target, method=LANCZOS)`, an external
collaborator: the output always has exactly the target size; when the input
already has the target size the computed crop box is the whole image and
`Image.resize` takes its fast path returning a pixel-identical copy;
otherwise the pixels come from resampling, modelled by the abstract
`resample` argument. -/
def imageOpsFit (img : Img) (target : Int × Int)
    (resample : Img → Int × Int → Int → Int → Int × Int × Int) : Img :=
  if img.width = target.1 ∧ img.height = target.2 then img
  else { width := target.1, height := target.2, pix := resample img target }

/-- Mirrors `crop_image` from `processing.py`: crop to the box, raise
`ValueError` when the crop is smaller than the standard's target in either
dimension, otherwise fit to exactly the target size. -/
def crop_image (img : Img) (box : Int × Int × Int × Int)
    (std : PassportStandard)
    (resample : Img → Int × Int → Int → Int → Int × Int × Int) :
    Except PhotoError Img :=
  let cropped := pilCrop img box
  if cropped.width < std.width_px ∨ cropped.height < std.height_px then
    .error .cropTooSmall
  else .ok (imageOpsFit cropped std.size resample)

/-- The `ValueError`s raised by `sheet.py`. -/
inductive SheetError where
  | photoLargerThanCanvas
  | cannotPlaceCopies
  | sizeMismatch
deriving DecidableEq

/-- The inner `while` loop of `_generate_positions`: walk a row left to
right. `fuel` only bounds the number of iterations so that the recursion is
structural; `none` means the fuel ran out before the loop exited. -/
def innerLoop (cw pw margin copies y : Int) :
    Nat → Int → List (Int × Int) → Option (List (Int × Int))
  | 0, x, acc =>
      if x + pw ≤ cw - margin ∧ (acc.length : Int) < copies then none
      else some acc
  | fuel + 1, x, acc =>
      if x + pw ≤ cw - margin ∧ (acc.length : Int) < copies then
        innerLoop cw pw margin copies y fuel (x + pw + margin) (acc ++ [(x, y)])
      else some acc

/-- The outer `while` loop of `_generate_positions`: walk rows top to
bottom, running the inner loop on each row. `none` means the fuel ran out
(the source loop can genuinely fail to terminate on adversarial integer
inputs, e.g. a negative photo height, so the embedding is fuelled). -/
def outerLoop (cw ch pw ph margin copies : Int) :
    Nat → Int → List (Int × Int) → Option (List (Int × Int))
  | 0, y, acc =>
      if y + ph ≤ ch - margin ∧ (acc.length : Int) < copies then none
      else some acc
  | fuel + 1, y, acc =>
      if y + ph ≤ ch - margin ∧ (acc.length : Int) < copies then
        match innerLoop cw pw margin copies y (fuel + 1) margin acc with
        | none => none
        | some acc2 =>
            outerLoop cw ch pw ph margin copies fuel (y + ph + margin) acc2
      else some acc

/-- Mirrors `_generate_positions` from `sheet.py`: reject a photo larger
than the canvas, run the grid loop, and reject an empty result. `none`
means the fuel ran out. -/
def generatePositions (canvasSize photoSize : Int × Int)
    (copies margin : Int) (fuel : Nat) :
    Option (Except SheetError (List (Int × Int))) :=
  if photoSize.1 > canvasSize.1 ∨ photoSize.2 > canvasSize.2 then
    some (.error .photoLargerThanCanvas)
  else
    match outerLoop canvasSize.1 canvasSize.2 photoSize.1 photoSize.2
        margin copies fuel margin [] with
    | none => none
    | some ps => some (if ps = [] then .error .cannotPlaceCopies else .ok ps)

/-- The observable result of `create_passport_sheet`: the canvas size and
the positions at which the photo was pasted, in paste order. -/
structure SheetResult where
  canvasW : Int
  canvasH : Int
  pasted : List (Int × Int)
deriving DecidableEq

/-- Python `copies or sheet_cfg.default_copies`: `None` and `0` are falsy
and fall back to the default; every other integer is kept. -/
def resolveCopies (copies : Option Int) (d : Int) : Int :=
  match copies with
  | none => d
  | some c => if c = 0 then d else c

/-- Mirrors `create_passport_sheet` from `sheet.py`: reject a photo whose
size differs from the standard's, resolve the copy count by truthiness,
generate grid positions, and paste the photo at the first
`min(target_copies, len(positions))` of them. -/
def create_passport_sheet (photoW photoH : Int) (copies : Option Int)
    (std : PassportStandard) (fuel : Nat) :
    Option (Except SheetError SheetResult) :=
  if (photoW, photoH) ≠ std.size then some (.error .sizeMismatch)
  else
    let cfg := std.sheet
    let target_copies := resolveCopies copies cfg.default_copies
    match generatePositions cfg.canvas_size (photoW, photoH) target_copies
        cfg.margin_px fuel with
    | none => none
    | some (.error e) => some (.error e)
    | some (.ok positions) =>
        some (.ok ⟨cfg.canvas_size.1, cfg.canvas_size.2,
          positions.take (min target_copies (positions.length : Int)).toNat⟩)

/-- The photo-sized open rectangles at two positions share no point. -/
def rectDisjoint (pw ph : Int) (p q : Int × Int) : Prop :=
  ∀ a b : Int,
    ¬(p.1 ≤ a ∧ a < p.1 + pw ∧ p.2 ≤ b ∧ b < p.2 + ph ∧
      q.1 ≤ a ∧ a < q.1 + pw ∧ q.2 ≤ b ∧ b < q.2 + ph)

/-- Row-major ordering relation between two placed positions: the later one
is further right in the same row by at least a full cell and margin, or at
least a full cell and margin further down. -/
def rowMajorRel (pw ph margin : Int) (p q : Int × Int) : Prop :=
  (p.2 = q.2 ∧ p.1 + pw + margin ≤ q.1) ∨ p.2 + ph + margin ≤ q.2

/-- A position lies on the grid anchored at `(margin, margin)` with steps
`pw + margin` and `ph + margin`. -/
def gridPoint (pw ph margin : Int) (p : Int × Int) : Prop :=
  ∃ i j : Nat, p.1 = margin + i * (pw + margin) ∧ p.2 = margin + j * (ph + margin)

/-- The photo-sized rectangle at `p` lies within
`[margin, canvas - margin]` on both axes. -/
def inSheetBounds (cw ch pw ph margin : Int) (p : Int × Int) : Prop :=
  margin ≤ p.1 ∧ p.1 + pw ≤ cw - margin ∧ margin ≤ p.2 ∧ p.2 + ph ≤ ch - margin

/-- A sufficient separation criterion for disjointness of two photo-sized
rectangles: separated horizontally or vertically by a full cell. -/
theorem rectDisjoint_cases (pw ph : Int) (p q : Int × Int)
    (h : p.1 + pw ≤ q.1 ∨ q.1 + pw ≤ p.1 ∨ p.2 + ph ≤ q.2 ∨ q.2 + ph ≤ p.2) :
    rectDisjoint pw ph p q := by
  rintro a b ⟨h1, h2, h3, h4, h5, h6, h7, h8⟩
  omega

/-- C3: for the "us" standard and face box (100, 120, 200, 200) in a large
image, `suggest_crop` computes target height `max(200*1.7, (200*1.7)/1.0) =
340`, target width 340, center (200, 220), and box (30, 50, 370, 390). -/
theorem suggest_crop_us_scenario :
    targetCropHeight usStandard 200 200 = 340 ∧
    targetCropHeight usStandard 200 200 * usStandard.aspect = 340 ∧
    suggest_crop [(100, 120, 200, 200)] 1000 1000 usStandard =
      some ⟨30, 50, 370, 390⟩ :=
  ⟨by decide, by decide, by decide⟩

/-- C2 counterexample: at the "us" standard (aspect 1), the face box
(0, 1, 150, 150) detected in a 1000x1000 image (face fully inside, at the
detector's 150x150 minimum size) yields the box (0, 0, 254, 256): round half
to even pushes the width down and the height up, so width and height differ
by 2 pixels and `(right-left)` is not within 1 pixel of
`aspect*(bottom-top)`. -/
theorem suggest_crop_tolerance_cex :
    suggest_crop [(0, 1, 150, 150)] 1000 1000 usStandard =
      some ⟨0, 0, 254, 256⟩ ∧
    usStandard.aspect = 1 ∧
    ¬(|((254 : Rat) - 0) - usStandard.aspect * ((256 : Rat) - 0)| ≤ 1) :=
  ⟨by decide, by decide, by decide⟩

/-- C1 counterexample: `create_passport_sheet` with the "us" standard and the
default copy count pastes only 2 copies, not 4: a 600-wide photo with 60px
margins admits a single column on the 1200px-wide canvas (60+600+60+600+60 =
1380 > 1200) and two rows on the 1800px-tall canvas. -/
theorem create_sheet_us_copies_cex :
    create_passport_sheet 600 600 none usStandard 10 =
      some (.ok ⟨1200, 1800, [(60, 60), (60, 720)]⟩) ∧
    ¬(([((60 : Int), (60 : Int)), (60, 720)]).length = 4) :=
  ⟨by decide, by decide⟩

/-- C1 amended: `create_passport_sheet` with the "us" standard and the default
copy count returns a sheet with exactly 2 pasted copies of the photo, at 2
distinct non-overlapping positions within the canvas. -/
theorem create_sheet_us_default_spec :
    ∃ r, create_passport_sheet 600 600 none usStandard 10 = some (.ok r) ∧
      r.pasted.length = 2 ∧ r.pasted.Nodup ∧
      r.pasted.Pairwise (rectDisjoint 600 600) ∧
      ∀ p ∈ r.pasted, 0 ≤ p.1 ∧ p.1 + 600 ≤ 1200 ∧ 0 ≤ p.2 ∧ p.2 + 600 ≤ 1800 := by
  refine ⟨⟨1200, 1800, [(60, 60), (60, 720)]⟩, by decide, by decide, by decide,
    ?_, by decide⟩
  refine List.Pairwise.cons ?_ (List.pairwise_singleton _ _)
  intro q hq
  simp only [List.mem_singleton] at hq
  subst hq
  exact rectDisjoint_cases _ _ _ _ (Or.inr (Or.inr (Or.inl (by decide))))

/-- C5 counterexample: with a negative margin, `_generate_positions` returns
without error two positions whose photo-sized rectangles overlap: canvas
10x10, photo 10x10, margin -5, copies 2 yields [(-5, -5), (0, -5)], and the
two 10x10 rectangles share the point (0, 0). -/
theorem generate_positions_overlap_cex :
    generatePositions (10, 10) (10, 10) 2 (-5) 5 =
      some (.ok [(-5, -5), (0, -5)]) ∧
    ¬ rectDisjoint 10 10 (-5, -5) (0, -5) := by
  refine ⟨by decide, ?_⟩
  intro hd
  exact hd 0 0 (by decide)

/-- Round half to even is within half a unit of its argument. -/
theorem roundHE_abs (q : Rat) : |(roundHE q : Rat) - q| ≤ 1/2 := by
  have h1 : ((⌊q⌋ : Int) : Rat) ≤ q := Int.floor_le q
  have h2 : q < ⌊q⌋ + 1 := Int.lt_floor_add_one q
  simp only [roundHE]
  split_ifs with ha hb hc
  · rw [abs_le]
    constructor <;> linarith
  · rw [abs_le]
    push_cast
    constructor <;> linarith
  · have heq : q - ⌊q⌋ = 1/2 := le_antisymm (not_lt.mp hb) (not_lt.mp ha)
    rw [abs_le]
    constructor <;> linarith
  · have heq : q - ⌊q⌋ = 1/2 := le_antisymm (not_lt.mp hb) (not_lt.mp ha)
    rw [abs_le]
    push_cast
    constructor <;> linarith

/-- The per-axis clamp keeps the box inside `[0, bound]`, keeps the low edge
strictly below the high edge, and preserves the width whenever the width
fits within the bound. -/
theorem clampAxis_spec (lo hi bound : Int) (h1 : 1 ≤ hi - lo)
    (h2 : 1 ≤ bound) :
    0 ≤ (clampAxis lo hi bound).1 ∧
    (clampAxis lo hi bound).1 < (clampAxis lo hi bound).2 ∧
    (clampAxis lo hi bound).2 ≤ bound ∧
    (hi - lo ≤ bound →
      (clampAxis lo hi bound).2 - (clampAxis lo hi bound).1 = hi - lo) := by
  simp only [clampAxis]
  split_ifs <;> dsimp only <;> refine ⟨?_, ?_, ?_, fun hfit => ?_⟩ <;> omega

/-- One axis of `suggest_crop`: round the two edges of the centered interval
of half-width `halfw`, then clamp into `[0, bound]`. The result is in
bounds and nonempty, and when the target width fits in the bound the final
width is within one pixel of the target width `2 * halfw`. -/
theorem cropAxis_spec (c halfw : Rat) (bound : Int)
    (hhw : 1 ≤ halfw) (hb : 1 ≤ bound) :
    0 ≤ (clampAxis (roundHE (c - halfw)) (roundHE (c + halfw)) bound).1 ∧
    (clampAxis (roundHE (c - halfw)) (roundHE (c + halfw)) bound).1 <
      (clampAxis (roundHE (c - halfw)) (roundHE (c + halfw)) bound).2 ∧
    (clampAxis (roundHE (c - halfw)) (roundHE (c + halfw)) bound).2 ≤ bound ∧
    (2 * halfw + 1 ≤ (bound : Rat) →
      |(((clampAxis (roundHE (c - halfw)) (roundHE (c + halfw)) bound).2 -
          (clampAxis (roundHE (c - halfw)) (roundHE (c + halfw)) bound).1 :
          Int) : Rat) - 2 * halfw| ≤ 1) := by
  have hlo := roundHE_abs (c - halfw)
  have hhi := roundHE_abs (c + halfw)
  rw [abs_le] at hlo hhi
  have hBlow : 2 * halfw - 1 ≤
      ((roundHE (c + halfw) - roundHE (c - halfw) : Int) : Rat) := by
    push_cast
    linarith [hlo.1, hlo.2, hhi.1, hhi.2]
  have hBhigh : ((roundHE (c + halfw) - roundHE (c - halfw) : Int) : Rat) ≤
      2 * halfw + 1 := by
    push_cast
    linarith [hlo.1, hlo.2, hhi.1, hhi.2]
  have hB1 : 1 ≤ roundHE (c + halfw) - roundHE (c - halfw) := by
    have hq : (1 : Rat) ≤
        ((roundHE (c + halfw) - roundHE (c - halfw) : Int) : Rat) := by
      linarith
    exact_mod_cast hq
  obtain ⟨g1, g2, g3, g4⟩ :=
    clampAxis_spec (roundHE (c - halfw)) (roundHE (c + halfw)) bound hB1 hb
  refine ⟨g1, g2, g3, fun hfit => ?_⟩
  have hBle : roundHE (c + halfw) - roundHE (c - halfw) ≤ bound := by
    have hq : ((roundHE (c + halfw) - roundHE (c - halfw) : Int) : Rat) ≤
        (bound : Rat) := by linarith
    exact_mod_cast hq
  rw [g4 hBle, abs_le]
  constructor <;> linarith

/-- C2 amended: whenever `suggest_crop` returns a box for a face at least
2x2 pixels in a nonempty image, the box always satisfies
`0 ≤ left < right ≤ width` and `0 ≤ top < bottom ≤ height` (the clamp never
leaves the image, even when the image is smaller than the padded crop); and
when the image is large enough for the padded target in both dimensions, the
box width and height are each within 1 pixel of the padded targets, hence
`right - left` is within `1 + aspect` pixels of `aspect * (bottom - top)`. -/
theorem suggest_crop_box_spec (std : PassportStandard)
    (x y w h imgW imgH : Int) (s : CropSuggestion)
    (hs : suggestCropGeom std x y w h imgW imgH = s)
    (hsw : 0 < std.width_px) (hsh : 0 < std.height_px)
    (hpad : 1 ≤ std.face_padding) (hw2 : 2 ≤ w) (hh2 : 2 ≤ h)
    (hW : 1 ≤ imgW) (hH : 1 ≤ imgH) :
    (0 ≤ s.left ∧ s.left < s.right ∧ s.right ≤ imgW ∧
      0 ≤ s.top ∧ s.top < s.bottom ∧ s.bottom ≤ imgH) ∧
    (targetCropHeight std w h * std.aspect + 1 ≤ (imgW : Rat) →
      targetCropHeight std w h + 1 ≤ (imgH : Rat) →
      |((s.right - s.left : Int) : Rat) -
          targetCropHeight std w h * std.aspect| ≤ 1 ∧
      |((s.bottom - s.top : Int) : Rat) - targetCropHeight std w h| ≤ 1 ∧
      |((s.right - s.left : Int) : Rat) -
          std.aspect * ((s.bottom - s.top : Int) : Rat)| ≤ 1 + std.aspect) := by
  subst hs
  have asp_pos : (0 : Rat) < std.aspect := by
    have hq1 : (0 : Rat) < (std.width_px : Rat) := by exact_mod_cast hsw
    have hq2 : (0 : Rat) < (std.height_px : Rat) := by exact_mod_cast hsh
    exact div_pos hq1 hq2
  have hw' : (2 : Rat) ≤ (w : Rat) := by exact_mod_cast hw2
  have hh' : (2 : Rat) ≤ (h : Rat) := by exact_mod_cast hh2
  have hwp : (2 : Rat) ≤ (w : Rat) * std.face_padding := by nlinarith
  have hhp : (2 : Rat) ≤ (h : Rat) * std.face_padding := by nlinarith
  have hth : (2 : Rat) ≤ targetCropHeight std w h := by
    unfold targetCropHeight
    exact le_trans hhp (le_max_left _ _)
  have htw : (2 : Rat) ≤ targetCropHeight std w h * std.aspect := by
    have hge : ((w : Rat) * std.face_padding) / std.aspect ≤
        targetCropHeight std w h := by
      unfold targetCropHeight
      exact le_max_right _ _
    have hmul := mul_le_mul_of_nonneg_right hge (le_of_lt asp_pos)
    rw [div_mul_cancel₀ _ (ne_of_gt asp_pos)] at hmul
    linarith
  have hhwx : (1 : Rat) ≤ targetCropHeight std w h * std.aspect / 2 := by
    linarith
  have hhwy : (1 : Rat) ≤ targetCropHeight std w h / 2 := by linarith
  obtain ⟨gx1, gx2, gx3, gx4⟩ := cropAxis_spec ((x + w.fdiv 2 : Int) : Rat)
    (targetCropHeight std w h * std.aspect / 2) imgW hhwx hW
  obtain ⟨gy1, gy2, gy3, gy4⟩ := cropAxis_spec ((y + h.fdiv 2 : Int) : Rat)
    (targetCropHeight std w h / 2) imgH hhwy hH
  rw [show (2 : Rat) * (targetCropHeight std w h * std.aspect / 2) =
      targetCropHeight std w h * std.aspect from by ring] at gx4
  rw [show (2 : Rat) * (targetCropHeight std w h / 2) =
      targetCropHeight std w h from by ring] at gy4
  simp only [suggestCropGeom]
  constructor
  · exact ⟨gx1, gx2, gx3, gy1, gy2, gy3⟩
  · intro hfw hfh
    have hBx := gx4 hfw
    have hBy := gy4 hfh
    refine ⟨hBx, hBy, ?_⟩
    set B : Int :=
      (clampAxis (roundHE (((x + w.fdiv 2 : Int) : Rat) -
          targetCropHeight std w h * std.aspect / 2))
        (roundHE (((x + w.fdiv 2 : Int) : Rat) +
          targetCropHeight std w h * std.aspect / 2)) imgW).2 -
      (clampAxis (roundHE (((x + w.fdiv 2 : Int) : Rat) -
          targetCropHeight std w h * std.aspect / 2))
        (roundHE (((x + w.fdiv 2 : Int) : Rat) +
          targetCropHeight std w h * std.aspect / 2)) imgW).1 with hBdef
    set Hb : Int :=
      (clampAxis (roundHE (((y + h.fdiv 2 : Int) : Rat) -
          targetCropHeight std w h / 2))
        (roundHE (((y + h.fdiv 2 : Int) : Rat) +
          targetCropHeight std w h / 2)) imgH).2 -
      (clampAxis (roundHE (((y + h.fdiv 2 : Int) : Rat) -
          targetCropHeight std w h / 2))
        (roundHE (((y + h.fdiv 2 : Int) : Rat) +
          targetCropHeight std w h / 2)) imgH).1 with hHdef
    have key : ((B : Int) : Rat) - std.aspect * ((Hb : Int) : Rat) =
        (((B : Int) : Rat) - targetCropHeight std w h * std.aspect) +
          std.aspect * (targetCropHeight std w h - ((Hb : Int) : Rat)) := by
      ring
    calc |((B : Int) : Rat) - std.aspect * ((Hb : Int) : Rat)|
        = |(((B : Int) : Rat) - targetCropHeight std w h * std.aspect) +
            std.aspect * (targetCropHeight std w h - ((Hb : Int) : Rat))| := by
          rw [key]
      _ ≤ |((B : Int) : Rat) - targetCropHeight std w h * std.aspect| +
            |std.aspect * (targetCropHeight std w h - ((Hb : Int) : Rat))| :=
          abs_add _ _
      _ ≤ 1 + std.aspect := by
          refine add_le_add hBx ?_
          rw [abs_mul, abs_of_pos asp_pos, abs_sub_comm]
          calc std.aspect * |((Hb : Int) : Rat) - targetCropHeight std w h|
              ≤ std.aspect * 1 :=
                mul_le_mul_of_nonneg_left hBy (le_of_lt asp_pos)
            _ = std.aspect := mul_one _

/-- Witness for C2: the "us" standard at face box (100, 120, 200, 200) in a
1000x1000 image produces the box (30, 50, 370, 390), which satisfies the
bounds and, since the image is large enough, the width and height
tolerances. -/
theorem suggest_crop_box_witness :
    (0 ≤ (30 : Int) ∧ (30 : Int) < 370 ∧ (370 : Int) ≤ 1000 ∧
      0 ≤ (50 : Int) ∧ (50 : Int) < 390 ∧ (390 : Int) ≤ 1000) ∧
    (targetCropHeight usStandard 200 200 * usStandard.aspect + 1 ≤
        ((1000 : Int) : Rat) →
      targetCropHeight usStandard 200 200 + 1 ≤ ((1000 : Int) : Rat) →
      |(((370 : Int) - 30 : Int) : Rat) -
          targetCropHeight usStandard 200 200 * usStandard.aspect| ≤ 1 ∧
      |(((390 : Int) - 50 : Int) : Rat) - targetCropHeight usStandard 200 200| ≤ 1 ∧
      |(((370 : Int) - 30 : Int) : Rat) -
          usStandard.aspect * ((((390 : Int) - 50 : Int)) : Rat)| ≤
        1 + usStandard.aspect) :=
  suggest_crop_box_spec usStandard 100 120 200 200 1000 1000
    ⟨30, 50, 370, 390⟩ (by decide) (by decide) (by decide) (by decide)
    (by decide) (by decide) (by decide) (by decide)

/-- Row invariant of the inner loop of `_generate_positions`: positions
already placed are either earlier in the current row, a full cell to the
left, or in an earlier row, a full cell above; walking a row preserves
bounds, grid membership, pairwise row-major order and the length cap. -/
theorem innerLoop_invariant (cw ch pw ph margin copies y : Int)
    (hm : 0 ≤ margin) (hpw : 0 ≤ pw) :
    ∀ (fuel : Nat) (x : Int) (acc acc2 : List (Int × Int)),
      innerLoop cw pw margin copies y fuel x acc = some acc2 →
      margin ≤ x →
      (∃ i : Nat, x = margin + i * (pw + margin)) →
      margin ≤ y → y + ph ≤ ch - margin →
      (∃ j : Nat, y = margin + j * (ph + margin)) →
      (∀ p ∈ acc, inSheetBounds cw ch pw ph margin p ∧ gridPoint pw ph margin p) →
      acc.Pairwise (rowMajorRel pw ph margin) →
      (∀ p ∈ acc, rowMajorRel pw ph margin p (x, y)) →
      ((acc.length : Int) ≤ copies ∨ acc = []) →
      (∀ p ∈ acc2, inSheetBounds cw ch pw ph margin p ∧ gridPoint pw ph margin p) ∧
      acc2.Pairwise (rowMajorRel pw ph margin) ∧
      (∀ p ∈ acc2, p.2 = y ∨ p.2 + ph + margin ≤ y) ∧
      ((acc2.length : Int) ≤ copies ∨ acc2 = []) := by
  intro fuel
  induction fuel with
  | zero =>
    intro x acc acc2 hrun _ _ _ _ _ hall hpair hrel hlen
    unfold innerLoop at hrun
    split at hrun
    · exact absurd hrun (by simp)
    · cases hrun
      exact ⟨hall, hpair, fun p hp => (hrel p hp).imp And.left id, hlen⟩
  | succ fuel ih =>
    intro x acc acc2 hrun hx hgx hy1 hy2 hgy hall hpair hrel hlen
    unfold innerLoop at hrun
    split at hrun
    · next hcond =>
      obtain ⟨i, hi⟩ := hgx
      refine ih (x + pw + margin) (acc ++ [(x, y)]) acc2 hrun (by omega)
        ⟨i + 1, by rw [hi]; push_cast; ring⟩ hy1 hy2 hgy ?_ ?_ ?_ ?_
      · intro p hp
        rcases List.mem_append.mp hp with hp | hp
        · exact hall p hp
        · obtain ⟨j, hj⟩ := hgy
          simp only [List.mem_singleton] at hp
          subst hp
          exact ⟨⟨hx, hcond.1, hy1, hy2⟩, ⟨i, j, hi, hj⟩⟩
      · refine List.pairwise_append.mpr ⟨hpair, List.pairwise_singleton _ _, ?_⟩
        intro p hp q hq
        simp only [List.mem_singleton] at hq
        subst hq
        exact hrel p hp
      · intro p hp
        rcases List.mem_append.mp hp with hp | hp
        · rcases hrel p hp with ⟨heq, hle⟩ | hbelow
          · exact Or.inl ⟨heq, by omega⟩
          · exact Or.inr hbelow
        · simp only [List.mem_singleton] at hp
          subst hp
          exact Or.inl ⟨rfl, by omega⟩
      · left
        have := hcond.2
        simp only [List.length_append, List.length_singleton]
        push_cast
        omega
    · cases hrun
      exact ⟨hall, hpair, fun p hp => (hrel p hp).imp And.left id, hlen⟩

/-- Loop invariant of the outer loop of `_generate_positions`: rows are
walked top to bottom, every accumulated position stays a full cell above the
current row, and bounds, grid membership, pairwise row-major order and the
length cap are preserved. -/
theorem outerLoop_invariant (cw ch pw ph margin copies : Int)
    (hm : 0 ≤ margin) (hpw : 0 ≤ pw) (hph : 0 ≤ ph) :
    ∀ (fuel : Nat) (y : Int) (acc acc2 : List (Int × Int)),
      outerLoop cw ch pw ph margin copies fuel y acc = some acc2 →
      margin ≤ y →
      (∃ j : Nat, y = margin + j * (ph + margin)) →
      (∀ p ∈ acc, inSheetBounds cw ch pw ph margin p ∧ gridPoint pw ph margin p) →
      acc.Pairwise (rowMajorRel pw ph margin) →
      (∀ p ∈ acc, p.2 + ph + margin ≤ y) →
      ((acc.length : Int) ≤ copies ∨ acc = []) →
      (∀ p ∈ acc2, inSheetBounds cw ch pw ph margin p ∧ gridPoint pw ph margin p) ∧
      acc2.Pairwise (rowMajorRel pw ph margin) ∧
      ((acc2.length : Int) ≤ copies ∨ acc2 = []) := by
  intro fuel
  induction fuel with
  | zero =>
    intro y acc acc2 hrun _ _ hall hpair _ hlen
    unfold outerLoop at hrun
    split at hrun
    · exact absurd hrun (by simp)
    · cases hrun
      exact ⟨hall, hpair, hlen⟩
  | succ fuel ih =>
    intro y acc acc2 hrun hy hgy hall hpair hrel hlen
    unfold outerLoop at hrun
    split at hrun
    · next hcond =>
      cases hinner : innerLoop cw pw margin copies y (fuel + 1) margin acc with
      | none => rw [hinner] at hrun; exact absurd hrun (by simp)
      | some acc3 =>
        rw [hinner] at hrun
        obtain ⟨hall3, hpair3, hrow3, hlen3⟩ :=
          innerLoop_invariant cw ch pw ph margin copies y hm hpw (fuel + 1)
            margin acc acc3 hinner le_rfl ⟨0, by ring⟩ hy hcond.1 hgy hall hpair
            (fun p hp => Or.inr (hrel p hp)) hlen
        obtain ⟨j, hj⟩ := hgy
        refine ih (y + ph + margin) acc3 acc2 hrun (by omega)
          ⟨j + 1, by rw [hj]; push_cast; ring⟩ hall3 hpair3 ?_ hlen3
        intro p hp
        rcases hrow3 p hp with heq | hbelow
        · omega
        · omega
    · cases hrun
      exact ⟨hall, hpair, hlen⟩

/-- Two positions in row-major order have disjoint photo rectangles when the
margin and the photo dimensions are nonnegative. -/
theorem rowMajorRel_disjoint (pw ph margin : Int) (hm : 0 ≤ margin)
    (p q : Int × Int) (h : rowMajorRel pw ph margin p q) :
    rectDisjoint pw ph p q := by
  rcases h with ⟨_, hle⟩ | hbelow
  · exact rectDisjoint_cases _ _ _ _ (Or.inl (by omega))
  · exact rectDisjoint_cases _ _ _ _ (Or.inr (Or.inr (Or.inl (by omega))))

/-- C5 amended: for nonnegative margin and photo dimensions, whenever
`_generate_positions` returns without error, every returned position lies on
the row-major grid anchored at (margin, margin) with steps photoWidth+margin
and photoHeight+margin, the list has at most `copies` entries, the
photo-sized rectangles are pairwise non-overlapping, and every rectangle
lies within [margin, canvasSize - margin] on both axes. -/
theorem generate_positions_grid_spec (cw ch pw ph copies margin : Int)
    (fuel : Nat) (ps : List (Int × Int))
    (hm : 0 ≤ margin) (hpw : 0 ≤ pw) (hph : 0 ≤ ph)
    (hres : generatePositions (cw, ch) (pw, ph) copies margin fuel =
      some (.ok ps)) :
    (∀ p ∈ ps, gridPoint pw ph margin p) ∧
    (∀ p ∈ ps, inSheetBounds cw ch pw ph margin p) ∧
    ps.Pairwise (rectDisjoint pw ph) ∧
    (ps.length : Int) ≤ copies := by
  unfold generatePositions at hres
  split at hres
  · exact absurd hres (by simp)
  · revert hres
    cases hloop : outerLoop cw ch pw ph margin copies fuel margin [] with
    | none => intro hres; exact absurd hres (by simp)
    | some ps0 =>
      intro hres
      dsimp only at hres
      have hps0 : ps0 ≠ [] ∧ ps0 = ps := by
        by_cases hnil : ps0 = []
        · rw [if_pos hnil] at hres; simp at hres
        · rw [if_neg hnil] at hres
          exact ⟨hnil, by simpa using hres⟩
      obtain ⟨hnil, rfl⟩ := hps0
      obtain ⟨hall, hpair, hlen⟩ :=
        outerLoop_invariant cw ch pw ph margin copies hm hpw hph fuel margin
          [] ps0 hloop le_rfl ⟨0, by ring⟩ (by simp) (by simp) (by simp)
          (Or.inr rfl)
      refine ⟨fun p hp => (hall p hp).2, fun p hp => (hall p hp).1,
        hpair.imp (rowMajorRel_disjoint pw ph margin hm _ _), ?_⟩
      rcases hlen with h | h
      · exact h
      · exact absurd h hnil

/-- Witness for C5: the "us" sheet run (canvas 1200x1800, photo 600x600,
margin 60, copies 4) returns [(60, 60), (60, 720)], which satisfies the grid
form, the bounds, pairwise disjointness and the length cap. -/
theorem generate_positions_grid_witness :
    (∀ p ∈ [((60 : Int), (60 : Int)), (60, 720)], gridPoint 600 600 60 p) ∧
    (∀ p ∈ [((60 : Int), (60 : Int)), (60, 720)],
      inSheetBounds 1200 1800 600 600 60 p) ∧
    ([((60 : Int), (60 : Int)), (60, 720)]).Pairwise (rectDisjoint 600 600) ∧
    (([((60 : Int), (60 : Int)), (60, 720)]).length : Int) ≤ 4 :=
  generate_positions_grid_spec 1200 1800 600 600 4 60 10
    [(60, 60), (60, 720)] (by decide) (by decide) (by decide) (by decide)

/-- C7: `get_standard(None)` and `get_standard("")` both return the configured
default standard (the same object); `get_standard("US")` and
`get_standard("us")` return identical results (lookup is case-insensitive);
and `get_standard("zz")` fails with an error whose message enumerates the
valid codes. -/
theorem get_standard_spec :
    get_standard none = .ok DEFAULT_STANDARD ∧
    get_standard (some "") = .ok DEFAULT_STANDARD ∧
    get_standard (some "US") = get_standard (some "us") ∧
    get_standard (some "zz") =
      .error "Unknown passport standard 'zz'. Available: india, uk, us" := by
  refine ⟨by decide, by decide, by decide, by decide⟩

/-- C8: `validate_image_size` raises a "too small" `ValueError` if and only if
the input width or height is strictly below the corresponding dimension of the
standard's target pixel size; in particular a 400x400 image fails against the
"uk" standard (413x531 required). -/
theorem validate_image_size_spec :
    (∀ (imgW imgH : Int) (std : PassportStandard),
      validate_image_size imgW imgH std = .error .inputTooSmall ↔
        imgW < std.width_px ∨ imgH < std.height_px) ∧
    validate_image_size 400 400 ukStandard = .error .inputTooSmall := by
  constructor
  · intro imgW imgH std
    unfold validate_image_size
    split <;> simp_all
  · decide

/-- Witness for C8: a 300x500 image against the "us" standard (600x600)
is rejected, instantiating the characterisation at a concrete input. -/
theorem validate_image_size_witness :
    validate_image_size 300 500 usStandard = .error .inputTooSmall :=
  (validate_image_size_spec.1 300 500 usStandard).mpr (by decide)

/-- C10: `create_passport_sheet` with `copies = 0` behaves identically to
`copies = None`: the truthiness check `copies or default_copies` replaces `0`
by the standard's default copy count. -/
theorem create_sheet_zero_copies_spec :
    ∀ (photoW photoH : Int) (std : PassportStandard) (fuel : Nat),
      create_passport_sheet photoW photoH (some 0) std fuel =
        create_passport_sheet photoW photoH none std fuel := by
  intro photoW photoH std fuel
  rfl

/-- Witness for C10: the "us" standard sheet built with 0 copies equals the
sheet built with the copy count unspecified. -/
theorem create_sheet_zero_copies_witness :
    create_passport_sheet 600 600 (some 0) usStandard 10 =
      create_passport_sheet 600 600 none usStandard 10 :=
  create_sheet_zero_copies_spec 600 600 usStandard 10

/-- C6: `_generate_positions` raises "photo larger than canvas" before any
placement whenever the photo exceeds the canvas in either dimension, and
raises "cannot place any copies" whenever the grid loop produces zero
positions. -/
theorem generate_positions_error_spec :
    (∀ (cw ch pw ph copies margin : Int) (fuel : Nat),
      pw > cw ∨ ph > ch →
      generatePositions (cw, ch) (pw, ph) copies margin fuel =
        some (.error .photoLargerThanCanvas)) ∧
    (∀ (cw ch pw ph copies margin : Int) (fuel : Nat),
      ¬(pw > cw ∨ ph > ch) →
      outerLoop cw ch pw ph margin copies fuel margin [] = some [] →
      generatePositions (cw, ch) (pw, ph) copies margin fuel =
        some (.error .cannotPlaceCopies)) := by
  constructor
  · intro cw ch pw ph copies margin fuel hbig
    simp [generatePositions, hbig]
  · intro cw ch pw ph copies margin fuel hfit hloop
    simp [generatePositions, hfit, hloop]

/-- Witness for C6: a 20x5 photo on a 10x10 canvas is rejected as too large;
a 5x5 photo on a 10x10 canvas with margin 4 yields zero positions and is
rejected as unplaceable. -/
theorem generate_positions_error_witness :
    generatePositions (10, 10) (20, 5) 4 0 5 =
      some (.error .photoLargerThanCanvas) ∧
    generatePositions (10, 10) (5, 5) 4 4 5 =
      some (.error .cannotPlaceCopies) :=
  ⟨generate_positions_error_spec.1 10 10 20 5 4 0 5 (by decide),
   generate_positions_error_spec.2 10 10 5 5 4 4 5 (by decide) (by decide)⟩

/-- C4: for every registered standard, `crop_image` returns an image of
exactly the standard's pixel size whenever the cropped width and height are
at least the target dimensions, and raises "crop too small" exactly when the
cropped width or height is strictly below the target. -/
theorem crop_image_size_spec :
    ∀ (std : PassportStandard), std ∈ STANDARDS.map Prod.snd →
    ∀ (img : Img) (box : Int × Int × Int × Int)
      (resample : Img → Int × Int → Int → Int → Int × Int × Int),
      (std.width_px ≤ box.2.2.1 - box.1 ∧ std.height_px ≤ box.2.2.2 - box.2.1 →
        ∃ out, crop_image img box std resample = .ok out ∧
          out.width = std.width_px ∧ out.height = std.height_px) ∧
      (crop_image img box std resample = .error .cropTooSmall ↔
        box.2.2.1 - box.1 < std.width_px ∨ box.2.2.2 - box.2.1 < std.height_px) := by
  intro std _ img box resample
  simp only [crop_image, pilCrop, imageOpsFit, PassportStandard.size]
  constructor
  · rintro ⟨h1, h2⟩
    rw [if_neg (by omega)]
    split
    · next heq => exact ⟨_, rfl, heq.1, heq.2⟩
    · next => exact ⟨_, rfl, rfl, rfl⟩
  · constructor
    · intro herr
      by_contra hnot
      rw [if_neg hnot] at herr
      simp at herr
    · intro hcond
      rw [if_pos hcond]

/-- Witness for C4: the us standard with a 600x600 crop of a 700x700 image
yields a 600x600 output, and the error condition is decidably false there. -/
theorem crop_image_size_witness :
    ∃ out,
      crop_image ⟨700, 700, fun _ _ => (0, 0, 0)⟩ (0, 0, 600, 600) usStandard
        (fun _ _ _ _ => (0, 0, 0)) = .ok out ∧
      out.width = usStandard.width_px ∧ out.height = usStandard.height_px :=
  (crop_image_size_spec usStandard (by decide)
      ⟨700, 700, fun _ _ => (0, 0, 0)⟩ (0, 0, 600, 600)
      (fun _ _ _ _ => (0, 0, 0))).1 (by decide)

/-- C9: for every registered standard and image of exactly the standard's
size, `crop_image` with the full-image box returns a pixel-identical image:
the crop is the whole picture and the fit path is a no-op. -/
theorem crop_image_exact_identity :
    ∀ (std : PassportStandard), std ∈ STANDARDS.map Prod.snd →
    ∀ (img : Img)
      (resample : Img → Int × Int → Int → Int → Int × Int × Int),
      img.width = std.width_px → img.height = std.height_px →
      ∃ out,
        crop_image img (0, 0, std.width_px, std.height_px) std resample =
          .ok out ∧ Img.pixEq out img := by
  intro std _ img resample hw hh
  simp only [crop_image, pilCrop, imageOpsFit, PassportStandard.size]
  rw [if_neg (by omega), if_pos (by constructor <;> omega)]
  refine ⟨_, rfl, ?_, ?_, ?_⟩ <;> dsimp only
  · omega
  · omega
  · intro i j hi hiw hj hjh
    rw [if_pos (by refine ⟨by omega, by omega, by omega, by omega⟩)]
    rw [zero_add, zero_add]

/-- Witness for C9: a concrete 600x600 image against the us standard is
returned pixel-identically. -/
theorem crop_image_exact_identity_witness :
    ∃ out,
      crop_image ⟨600, 600, fun i j => (i % 256, j % 256, 7)⟩
          (0, 0, usStandard.width_px, usStandard.height_px) usStandard
          (fun _ _ _ _ => (0, 0, 0)) = .ok out ∧
      Img.pixEq out ⟨600, 600, fun i j => (i % 256, j % 256, 7)⟩ :=
  crop_image_exact_identity usStandard (by decide)
    ⟨600, 600, fun i j => (i % 256, j % 256, 7)⟩
    (fun _ _ _ _ => (0, 0, 0)) (by decide) (by decide)
